import Mathlib

/-!
Verification development for the QuantLib MNIST example notebook
(`examples/mnist/MNIST_Example.ipynb`).

The notebook defines a `Metric` running-average class and a `validate`
function, builds MNIST calibration/validation dataloaders
(`batch_size=128`, `shuffle=False`, `drop_last=True`), and walks a
pretrained classifier through three representational stages
(floating-point, fake-quantized, true-quantized) before exporting to the
DORY backend.  Pure notebook code (`Metric`, `validate`, the loader
construction, the top-level orchestration order) is embedded directly.
Library behaviour that the notebook invokes but whose code is not part of
this excerpt (the eps-propagation performed by `F2T24bitConverter`, the
`EpsTunnel` boundary conversion, the calibration statistics, torchvision's
`ToTensor` normalisation and the sequential `DataLoader` batching) is
modelled from the repository documentation, as flagged on each definition.
Real-valued tensor entries are modelled as rationals.
-/

set_option maxHeartbeats 1000000
set_option maxRecDepth 100000

namespace QL

/-- The `Metric` convenience class of the notebook: running sum of the
updated values together with the number of updates.  `sum` starts at the
integer `0` and `n` at `0`. -/
structure Metric where
  name : String
  sum : ℚ
  n : ℕ
  deriving DecidableEq

/-- Name given to the accuracy metric inside `validate`. -/
def testAccName : String := "test_acc"

/-- `Metric.__init__`: both counters start at zero. -/
def Metric.init (name : String) : Metric :=
  { name := name, sum := 0, n := 0 }

/-- `Metric.update`: add the value to the running sum, bump the count. -/
def Metric.update (m : Metric) (value : ℚ) : Metric :=
  { m with sum := m.sum + value, n := m.n + 1 }

/-- The `avg` property computes `self.sum / self.n`; when `n = 0` the
Python code raises `ZeroDivisionError`, modelled here as `none`. -/
def Metric.avg (m : Metric) : Option ℚ :=
  if m.n = 0 then none else some (m.sum / (m.n : ℚ))

/-- A sequence of `update` calls applied to a metric, in order. -/
def Metric.applyUpdates (m : Metric) (vs : List ℚ) : Metric :=
  vs.foldl Metric.update m

/-- Index of the largest entry, scanning left to right and keeping the
first maximal position: the behaviour of `output.argmax(dim=1)` on one
row of logits.  `bestVal`/`bestIdx` hold the current best. -/
def argmaxAux : List ℚ → ℕ → ℚ → ℕ → ℕ
  | [], _, _, bestIdx => bestIdx
  | v :: vs, i, bestVal, bestIdx =>
    if bestVal < v then argmaxAux vs (i + 1) v i
    else argmaxAux vs (i + 1) bestVal bestIdx

/-- `argmax` of a list of logits (0 on the empty list). -/
def argmax : List ℚ → ℕ
  | [] => 0
  | v :: vs => argmaxAux vs 1 v 0

/-- The `integer` switch inside `validate`: when set, the input data is
multiplied elementwise by 255 (`data *= 255`) before being fed to the
model; otherwise the data is passed unchanged. -/
def integerize (integer : Bool) (data : List ℚ) : List ℚ :=
  if integer then data.map (fun v => v * 255) else data

/-- An example is a flattened input tensor paired with its target label. -/
def LabeledExample : Type := List ℚ × ℕ

/-- Number of examples of the list on which the model's `argmax`
prediction equals the target (the `pred.eq(target)` count of `validate`,
including the `integer` input preprocessing). -/
def correctCount (model : List ℚ → List ℚ) (integer : Bool)
    (examples : List (List ℚ × ℕ)) : ℕ :=
  (examples.filter
    (fun ex => argmax (model (integerize integer ex.1)) == ex.2)).length

/-- Per-batch accuracy `pred.eq(target).float().mean()`: fraction of
correct predictions in the batch. -/
def batchAcc (model : List ℚ → List ℚ) (integer : Bool)
    (batch : List (List ℚ × ℕ)) : ℚ :=
  (correctCount model integer batch : ℚ) / (batch.length : ℚ)

/-- The `validate` function of the notebook, restricted to its returned
value: it folds `acc.update(pred.eq(target).float().mean())` over the
batches of the dataloader starting from `Metric('test_acc')` and returns
`acc.avg`.  (The `loss` accumulator is also computed by the source but
does not contribute to the returned value and is omitted.)  The result is
`none` exactly when the dataloader is empty, where the Python code would
raise `ZeroDivisionError` in `acc.avg`. -/
def validate (model : List ℚ → List ℚ)
    (dataloader : List (List (List ℚ × ℕ))) (integer : Bool) : Option ℚ :=
  (dataloader.foldl
    (fun acc batch => acc.update (batchAcc model integer batch))
    (Metric.init testAccName)).avg

/-- Configuration passed to `torch.utils.data.DataLoader` in the
notebook. -/
structure LoaderCfg where
  batchSize : ℕ
  shuffle : Bool
  dropLast : Bool
  deriving DecidableEq

/-- `calib_loader = DataLoader(calib_set, batch_size=128, shuffle=False,
drop_last=True, ...)`. -/
def calibLoaderCfg : LoaderCfg := { batchSize := 128, shuffle := false, dropLast := true }

/-- `valid_loader = DataLoader(valid_set, batch_size=128, shuffle=False,
drop_last=True, ...)`. -/
def validLoaderCfg : LoaderCfg := { batchSize := 128, shuffle := false, dropLast := true }

/-- Modelled from the spec: the batching behaviour of a sequential (non
shuffled) `torch.utils.data.DataLoader`, whose code is not part of this
excerpt.  The dataset is cut into consecutive batches of `bs` examples;
with `dropLast = true` only the `xs.length / bs` full batches are
produced, so a trailing partial batch is discarded. -/
def dataLoaderBatches (bs : ℕ) (dropLast : Bool) (xs : List α) : List (List α) :=
  let numB := if dropLast then xs.length / bs else (xs.length + bs - 1) / bs
  (List.range numB).map (fun i => (xs.drop (bs * i)).take bs)

/-! ### The notebook's top-level orchestration, as a trace of steps -/

/-- The three representational stages of the quantization flow. -/
inductive Stage
  | floatingPoint
  | fakeQuantized
  | trueQuantized
  deriving DecidableEq

/-- Which dataloader a `validate` call receives. -/
inductive Loader
  | calib
  | valid
  deriving DecidableEq

/-- One call to `validate` in the notebook: the representational stage of
the model passed, the loader, the `integer` keyword (defaulting to
`False` when absent), whether the returned accuracy is reported via
`print`, and whether the call happens inside the
`qe.float2fake.calibration(...)` context. -/
structure ValidateCall where
  stage : Stage
  loader : Loader
  integer : Bool
  reported : Bool
  calibCtx : Bool
  deriving DecidableEq

/-- The top-level operations performed by the notebook cells, in
program order. -/
inductive Step
  | defineNet
  | loadPretrained
  | symbolicTrace
  | f2fConvert
  | f2fRound
  | f2tConvert
  | removeFinalEpsTunnel
  | doryExport
  | runValidate (c : ValidateCall)
  deriving DecidableEq

/-- The sequence of top-level operations executed by the notebook, read
off the cells in order: definition and loading of `ExampleNet`,
full-precision validation, symbolic tracing, the Float2Fake conversion
(`F2F8bitPACTRoundingConverter`), calibration (a `validate` run on the
calibration loader inside the calibration context), the rounding editor
(`F2F8bitPACTRounder`), fake-quantized validation, the Fake2True
conversion (`F2T24bitConverter`), true-quantized validation with
`integer=True`, removal of the final `EpsTunnel`, and the DORY export. -/
def notebookScript : List Step := [
  Step.defineNet,
  Step.loadPretrained,
  Step.runValidate { stage := Stage.floatingPoint, loader := Loader.valid,
                     integer := false, reported := true, calibCtx := false },
  Step.symbolicTrace,
  Step.f2fConvert,
  Step.runValidate { stage := Stage.fakeQuantized, loader := Loader.calib,
                     integer := false, reported := false, calibCtx := true },
  Step.f2fRound,
  Step.runValidate { stage := Stage.fakeQuantized, loader := Loader.valid,
                     integer := false, reported := true, calibCtx := false },
  Step.f2tConvert,
  Step.runValidate { stage := Stage.trueQuantized, loader := Loader.valid,
                     integer := true, reported := true, calibCtx := false },
  Step.removeFinalEpsTunnel,
  Step.doryExport ]

/-- How a step changes the representational stage of the working model:
only the two converters move the model to a new stage. -/
def stepStage (s : Stage) : Step → Stage
  | Step.f2fConvert => Stage.fakeQuantized
  | Step.f2tConvert => Stage.trueQuantized
  | _ => s

/-- The stage of the working model before the first step and after each
step of the script. -/
def stageTrace : List Stage :=
  notebookScript.scanl stepStage Stage.floatingPoint

/-- Position of each stage in the intended pipeline order. -/
def stageRank : Stage → ℕ
  | Stage.floatingPoint => 0
  | Stage.fakeQuantized => 1
  | Stage.trueQuantized => 2

/-- The `validate` calls of a script, in program order. -/
def validateCallsOf (script : List Step) : List ValidateCall :=
  script.filterMap (fun s =>
    match s with
    | Step.runValidate c => some c
    | _ => none)

/-! ### The MNIST datasets and the calibration subset -/

/-- The two MNIST splits used by the notebook: `train=True` for the
calibration source, `train=False` for validation. -/
inductive Split
  | train
  | test
  deriving DecidableEq

/-- `Mcalib = 1024`, the calibration set size. -/
def Mcalib : ℕ := 1024

/-- The examples of the MNIST training split, identified by split tag and
index (the splits of MNIST are disjoint collections). -/
def trainExamples (trainLen : ℕ) : List (Split × ℕ) :=
  (List.range trainLen).map (fun i => (Split.train, i))

/-- The examples of the MNIST test split, used as validation set. -/
def validExamples (validLen : ℕ) : List (Split × ℕ) :=
  (List.range validLen).map (fun i => (Split.test, i))

/-- `np.random.permutation(len(train_set))[:Mcalib]`: the first `Mcalib`
entries of a permutation of the training-set indices.  The permutation
itself is a parameter here because it is drawn from an unseeded random
generator. -/
def calibIndices (perm : List ℕ) : List ℕ :=
  perm.take Mcalib

/-- `torch.utils.data.Subset(train_set, indices)`: the selected
training-split examples, in index order. -/
def calibExamples (perm : List ℕ) : List (Split × ℕ) :=
  (calibIndices perm).map (fun i => (Split.train, i))

/-- Number of examples in the MNIST training split. -/
def trainLenMNIST : ℕ := 60000

/-- Number of examples in the MNIST test split. -/
def validLenMNIST : ℕ := 10000

/-- One possible value of the unseeded `np.random.permutation`: the
identity permutation of the training indices. -/
def permA : List ℕ := List.range trainLenMNIST

/-- Another possible value of the unseeded permutation: the reversed
order of the training indices. -/
def permB : List ℕ := (List.range trainLenMNIST).reverse

/-- A sample activation statistic source: example `i` contributes the
activation value `i`. -/
def actSample : ℕ → ℚ := fun i => (i : ℚ)

/-- Modelled from the spec: calibration "collect[s] activation statistics
over a held-out subset of data to set quantizer scale/range parameters";
the range statistic is the running maximum of the activations observed
over the calibration examples. -/
def calibRange (act : ℕ → ℚ) (idxs : List ℕ) : ℚ :=
  (idxs.map act).foldl max 0

/-! ### Input normalisation and the true-quantized boundary -/

/-- Modelled from the spec: torchvision's `ToTensor` transform (not part
of this excerpt) maps a pixel byte `k ∈ [0, 255]` to the normalised value
`k / 255`. -/
def toTensor (k : ℕ) : ℚ := (k : ℚ) / 255

/-- The input scale handed to `F2T24bitConverter`:
`torch.tensor((0.0039216,))`. -/
def inputScale : ℚ := 39216 / 10000000

/-- Modelled from the spec: the final `EpsTunnel` "takes the integer
output of the network and transforms it into a floating-point value" by
multiplying each integer entry by the propagated output scale. -/
def epsTunnelVec (eps : ℚ) (n : List ℤ) : List ℚ :=
  n.map (fun z : ℤ => eps * (z : ℚ))

/-! ### Eps propagation (modelled from the spec)

The Fake2True conversion and its eps propagation live in
`quantlib.editing.f2t`, which is not part of this excerpt.  Following the
spec — "tracking and propagating the per-tensor scale factor
(quantization step size) through a computation graph so that integer
operations remain numerically equivalent to the original floating-point
computation" — a network is modelled as a chain of operations, each
either a linear layer whose real weights are an integer matrix at scale
`epsW`, or a ReLU.  The fake-quantized semantics computes on rationals;
the true-quantized semantics computes on integers, with the scale
propagated alongside. -/

/-- Casting of an integer vector into the rationals. -/
def castVec (n : List ℤ) : List ℚ :=
  n.map (fun z : ℤ => (z : ℚ))

/-- Elementwise scaling of a rational vector. -/
def scaleVec (eps : ℚ) (x : List ℚ) : List ℚ :=
  x.map (fun v => eps * v)

/-- Integer dot product of a weight row with an integer activation
vector. -/
def dotZ (r : List ℤ) (x : List ℤ) : ℤ :=
  (List.zipWith (fun a b => a * b) r x).sum

/-- Rational dot product of an integer weight row with a rational
activation vector. -/
def dotQ (r : List ℤ) (x : List ℚ) : ℚ :=
  (List.zipWith (fun (a : ℤ) (b : ℚ) => (a : ℚ) * b) r x).sum

/-- Modelled from the spec: one operation of a quantized network — a
linear layer with integer weight matrix `w` at weight scale `epsW`
(covering the integerised `Conv2d`/`Linear` layers), or a ReLU (covering
the requantising activations). -/
inductive TQOp
  | linear (w : List (List ℤ)) (epsW : ℚ)
  | relu
  deriving DecidableEq

/-- Well-formedness of an operation: a quantization step size is
nonnegative. -/
def TQOp.wf : TQOp → Prop
  | TQOp.linear _ epsW => 0 ≤ epsW
  | TQOp.relu => True

/-- Fake-quantized (floating-point) semantics of one operation: the
linear layer applies the real weights `epsW • w`; the ReLU clamps at
zero. -/
def TQOp.fakeEval : TQOp → List ℚ → List ℚ
  | TQOp.linear w epsW, x => scaleVec epsW (w.map (fun r => dotQ r x))
  | TQOp.relu, x => x.map (fun v => max 0 v)

/-- True-quantized (integer) semantics of one operation: the linear
layer applies the integer weights only; the ReLU clamps at zero. -/
def TQOp.trueEval : TQOp → List ℤ → List ℤ
  | TQOp.linear w _, n => w.map (fun r => dotZ r n)
  | TQOp.relu, n => n.map (fun z => max 0 z)

/-- Eps propagation through one operation: a linear layer multiplies the
incoming scale by its weight scale; a ReLU leaves it unchanged. -/
def TQOp.epsStep : TQOp → ℚ → ℚ
  | TQOp.linear _ epsW, eps => epsW * eps
  | TQOp.relu, eps => eps

/-- Fake-quantized evaluation of a chain of operations. -/
def fakeChainEval (ops : List TQOp) (x : List ℚ) : List ℚ :=
  ops.foldl (fun v op => op.fakeEval v) x

/-- True-quantized evaluation of a chain of operations. -/
def trueChainEval (ops : List TQOp) (n : List ℤ) : List ℤ :=
  ops.foldl (fun v op => op.trueEval v) n

/-- The scale attributed to the output of a chain, starting from the
input scale. -/
def chainEps (ops : List TQOp) (eps : ℚ) : ℚ :=
  ops.foldl (fun e op => op.epsStep e) eps

/-! ### Concrete instances used by the witnesses -/

/-- A concrete two-operation chain used as witness input. -/
def opsEx : List TQOp :=
  [TQOp.linear [[2], [-3]] (1 / 2), TQOp.relu]

/-- A concrete integer input vector used as witness input. -/
def nEx : List ℤ := [5]

/-- A concrete model for the `validate` witnesses: constant logits. -/
def mEx : List ℚ → List ℚ := fun _ => []

/-- A concrete dataset of 128 labeled examples for the `validate`
witnesses. -/
def xsEx : List (List ℚ × ℕ) := List.replicate 128 ([], 0)

/-! ## Helper lemmas about `Metric` -/

theorem applyUpdates_sum (vs : List ℚ) : ∀ m : Metric,
    (Metric.applyUpdates m vs).sum = m.sum + vs.sum := by
  induction vs with
  | nil => intro m; simp [Metric.applyUpdates]
  | cons v vs ih =>
    intro m
    have h : Metric.applyUpdates m (v :: vs) = Metric.applyUpdates (m.update v) vs := rfl
    rw [h, ih]
    simp [Metric.update, add_assoc]

theorem applyUpdates_n (vs : List ℚ) : ∀ m : Metric,
    (Metric.applyUpdates m vs).n = m.n + vs.length := by
  induction vs with
  | nil => intro m; simp [Metric.applyUpdates]
  | cons v vs ih =>
    intro m
    have h : Metric.applyUpdates m (v :: vs) = Metric.applyUpdates (m.update v) vs := rfl
    rw [h, ih]
    simp only [Metric.update, List.length_cons]
    omega

/-! ## Claim theorems -/

/-- C8: for every `Metric` object, after any sequence of `k ≥ 1` calls
`update(v_1), ..., update(v_k)` on a freshly constructed metric, `avg`
equals `(v_1 + ... + v_k) / k` and `n` equals `k`; with no update at all,
accessing `avg` fails with a division-by-zero error because `n` is `0`
(modelled as `none`). -/
theorem c8_metric_avg (nm : String) (vs : List ℚ) (hne : vs ≠ []) :
    (Metric.applyUpdates (Metric.init nm) vs).avg
        = some (vs.sum / (vs.length : ℚ))
      ∧ (Metric.applyUpdates (Metric.init nm) vs).n = vs.length
      ∧ (Metric.init nm).avg = none := by
  have hs : (Metric.applyUpdates (Metric.init nm) vs).sum = vs.sum := by
    rw [applyUpdates_sum]; simp [Metric.init]
  have hn : (Metric.applyUpdates (Metric.init nm) vs).n = vs.length := by
    rw [applyUpdates_n]; simp [Metric.init]
  have hlen : vs.length ≠ 0 := by
    intro h0
    exact hne (List.length_eq_zero.mp h0)
  refine ⟨?_, hn, rfl⟩
  simp only [Metric.avg, hs, hn, if_neg hlen]

/-- Witness for C8 at the concrete update sequence `[1, 1/2]`. -/
theorem c8_metric_avg_witness :
    (Metric.applyUpdates (Metric.init testAccName) [(1 : ℚ), 1 / 2]).avg
        = some (([(1 : ℚ), 1 / 2].sum) / (([(1 : ℚ), 1 / 2].length : ℚ)))
      ∧ (Metric.applyUpdates (Metric.init testAccName) [(1 : ℚ), 1 / 2]).n
        = [(1 : ℚ), 1 / 2].length
      ∧ (Metric.init testAccName).avg = none :=
  c8_metric_avg testAccName [(1 : ℚ), 1 / 2] (by decide)

/-- C2: the notebook takes the classifier through exactly the three
stages floating-point, fake-quantized (one `F2F...Converter` call) and
true-quantized (one `F2T24bitConverter` call), in this order, and the
DORY export only happens after the true-quantized stage is reached: the
stage trace is monotone, starts at floating-point, reaches all three
stages, ends at true-quantized, and the export is the last step, after
the Fake2True conversion. -/
theorem c2_three_stages_then_export :
    (notebookScript.count Step.f2fConvert = 1
      ∧ notebookScript.count Step.f2tConvert = 1
      ∧ notebookScript.count Step.doryExport = 1)
    ∧ (notebookScript.indexOf Step.f2fConvert < notebookScript.indexOf Step.f2tConvert
      ∧ notebookScript.indexOf Step.f2tConvert < notebookScript.indexOf Step.doryExport)
    ∧ (stageTrace.map stageRank).Pairwise (· ≤ ·)
    ∧ stageTrace.head? = some Stage.floatingPoint
    ∧ Stage.fakeQuantized ∈ stageTrace
    ∧ stageTrace.getLast? = some Stage.trueQuantized
    ∧ notebookScript.getLast? = some Step.doryExport := by
  decide

/-- C6: every `validate` call on the fake-quantized model (and on the
floating-point model) uses the default `integer=False`, the call on the
true-quantized model uses `integer=True`, and the fake-quantized model is
evaluated on the same loader with the same `integer` flag as the
floating-point model (the validation loader, `integer=False`). -/
theorem c6_integer_flags :
    (∀ c ∈ validateCallsOf notebookScript,
        (c.stage = Stage.fakeQuantized → c.integer = false)
      ∧ (c.stage = Stage.trueQuantized → c.integer = true)
      ∧ (c.stage = Stage.floatingPoint → c.integer = false))
    ∧ (({ stage := Stage.floatingPoint, loader := Loader.valid, integer := false,
          reported := true, calibCtx := false } : ValidateCall)
        ∈ validateCallsOf notebookScript)
    ∧ (({ stage := Stage.fakeQuantized, loader := Loader.valid, integer := false,
          reported := true, calibCtx := false } : ValidateCall)
        ∈ validateCallsOf notebookScript)
    ∧ (({ stage := Stage.trueQuantized, loader := Loader.valid, integer := true,
          reported := true, calibCtx := false } : ValidateCall)
        ∈ validateCallsOf notebookScript) := by
  decide

/-! ## Helper lemmas about eps propagation -/

theorem castVec_cons (b : ℤ) (n : List ℤ) :
    castVec (b :: n) = (b : ℚ) :: castVec n := rfl

theorem scaleVec_cons (eps x : ℚ) (xs : List ℚ) :
    scaleVec eps (x :: xs) = (eps * x) :: scaleVec eps xs := rfl

theorem dotQ_cons (a : ℤ) (r : List ℤ) (x : ℚ) (xs : List ℚ) :
    dotQ (a :: r) (x :: xs) = (a : ℚ) * x + dotQ r xs := by
  simp [dotQ]

theorem dotZ_cons (a : ℤ) (r : List ℤ) (x : ℤ) (xs : List ℤ) :
    dotZ (a :: r) (x :: xs) = a * x + dotZ r xs := by
  simp [dotZ]

theorem dotQ_scale (r : List ℤ) (eps : ℚ) : ∀ n : List ℤ,
    dotQ r (scaleVec eps (castVec n)) = eps * ((dotZ r n : ℤ) : ℚ) := by
  induction r with
  | nil => intro n; simp [dotQ, dotZ]
  | cons a r ih =>
    intro n
    cases n with
    | nil => simp [dotQ, dotZ, scaleVec, castVec]
    | cons b n =>
      rw [castVec_cons, scaleVec_cons, dotQ_cons, dotZ_cons, ih n]
      push_cast
      ring

theorem epsStep_nonneg (op : TQOp) (hwf : op.wf) (eps : ℚ) (heps : 0 ≤ eps) :
    0 ≤ op.epsStep eps := by
  cases op with
  | linear w epsW =>
    have hW : (0 : ℚ) ≤ epsW := hwf
    exact mul_nonneg hW heps
  | relu => exact heps

theorem map_dot_scale (epsW eps : ℚ) (n : List ℤ) : ∀ w : List (List ℤ),
    scaleVec epsW (w.map (fun r => dotQ r (scaleVec eps (castVec n))))
      = scaleVec (epsW * eps) (castVec (w.map (fun r => dotZ r n))) := by
  intro w
  induction w with
  | nil => rfl
  | cons r w ih =>
    simp only [List.map_cons]
    rw [castVec_cons, scaleVec_cons, scaleVec_cons, dotQ_scale, ih]
    congr 1
    ring

theorem map_relu_scale (eps : ℚ) (heps : 0 ≤ eps) : ∀ n : List ℤ,
    (scaleVec eps (castVec n)).map (fun v => max 0 v)
      = scaleVec eps (castVec (n.map (fun z => max 0 z))) := by
  intro n
  induction n with
  | nil => rfl
  | cons b n ih =>
    simp only [List.map_cons]
    rw [castVec_cons, scaleVec_cons, List.map_cons, castVec_cons, scaleVec_cons, ih]
    congr 1
    rw [Int.cast_max, Int.cast_zero, mul_max_of_nonneg _ _ heps, mul_zero]

theorem fakeEval_scale (op : TQOp) (hwf : op.wf) (eps : ℚ) (heps : 0 ≤ eps) (n : List ℤ) :
    op.fakeEval (scaleVec eps (castVec n))
      = scaleVec (op.epsStep eps) (castVec (op.trueEval n)) := by
  cases op with
  | linear w epsW => exact map_dot_scale epsW eps n w
  | relu => exact map_relu_scale eps heps n

theorem chain_comm (ops : List TQOp) : ∀ eps : ℚ, 0 ≤ eps → (∀ op ∈ ops, op.wf) →
    ∀ n : List ℤ,
    fakeChainEval ops (scaleVec eps (castVec n))
      = scaleVec (chainEps ops eps) (castVec (trueChainEval ops n)) := by
  induction ops with
  | nil => intro eps _ _ n; simp [fakeChainEval, trueChainEval, chainEps]
  | cons op ops ih =>
    intro eps heps hwf n
    have hop : op.wf := hwf op (List.mem_cons_self op ops)
    have h1 : fakeChainEval (op :: ops) (scaleVec eps (castVec n))
        = fakeChainEval ops (op.fakeEval (scaleVec eps (castVec n))) := rfl
    have h2 : trueChainEval (op :: ops) n = trueChainEval ops (op.trueEval n) := rfl
    have h3 : chainEps (op :: ops) eps = chainEps ops (op.epsStep eps) := rfl
    rw [h1, h2, h3, fakeEval_scale op hop eps heps n]
    exact ih (op.epsStep eps) (epsStep_nonneg op hop eps heps)
      (fun o ho => hwf o (List.mem_cons_of_mem op ho)) (op.trueEval n)

theorem opsEx_wf : ∀ op ∈ opsEx, TQOp.wf op := by
  intro op hop
  simp only [opsEx, List.mem_cons, List.not_mem_nil, or_false] at hop
  rcases hop with rfl | rfl
  · show (0 : ℚ) ≤ 1 / 2
    norm_num
  · trivial

theorem epsTunnelVec_eq_scale (eps : ℚ) (m : List ℤ) :
    epsTunnelVec eps m = scaleVec eps (castVec m) := by
  simp [epsTunnelVec, scaleVec, castVec, List.map_map, Function.comp]

/-- C1: for every integer-valued input tensor, the true-quantized
computation produced by the Fake2True conversion at the input scale
0.0039216, rescaled through the propagated output eps, is numerically
equal to the floating-point computation of the fake-quantized model on
the correspondingly scaled real input. -/
theorem c1_eps_propagation_equiv (ops : List TQOp) (hwf : ∀ op ∈ ops, op.wf)
    (n : List ℤ) :
    fakeChainEval ops (scaleVec inputScale (castVec n))
      = scaleVec (chainEps ops inputScale) (castVec (trueChainEval ops n)) :=
  chain_comm ops inputScale (by norm_num [inputScale]) hwf n

/-- Witness for C1 at a concrete two-layer chain and input. -/
theorem c1_eps_propagation_equiv_witness :
    (∀ op ∈ opsEx, TQOp.wf op)
      ∧ fakeChainEval opsEx (scaleVec inputScale (castVec nEx))
          = scaleVec (chainEps opsEx inputScale) (castVec (trueChainEval opsEx nEx)) :=
  ⟨opsEx_wf, c1_eps_propagation_equiv opsEx opsEx_wf nEx⟩

theorem integerize_toTensor : ∀ l : List ℕ,
    integerize true (l.map toTensor) = l.map (fun k : ℕ => (k : ℚ)) := by
  intro l
  induction l with
  | nil => rfl
  | cons k l ih =>
    have h : integerize true ((k :: l).map toTensor)
        = (toTensor k * 255) :: integerize true (l.map toTensor) := rfl
    rw [h, ih, List.map_cons]
    congr 1
    simp only [toTensor]
    rw [div_mul_cancel₀ _ (by norm_num : (255 : ℚ) ≠ 0)]

/-- C3: the input fed during validation with `integer=True` is exactly
255 times a `ToTensor`-normalised image (entries `k/255` with
`k ∈ [0,255]`), hence every entry entering the graph is a nonnegative
integer `≤ 255`; and the final `EpsTunnel` turns the integer network
output back into the floating-point value of the fake-quantized
computation. -/
theorem c3_true_quant_boundary (img : List ℕ) (hpix : ∀ k ∈ img, k ≤ 255)
    (ops : List TQOp) (hwf : ∀ op ∈ ops, op.wf) (n : List ℤ) :
    integerize true (img.map toTensor) = img.map (fun k : ℕ => (k : ℚ))
      ∧ (∀ v ∈ integerize true (img.map toTensor), ∃ m : ℕ, m ≤ 255 ∧ v = (m : ℚ))
      ∧ epsTunnelVec (chainEps ops inputScale) (trueChainEval ops n)
          = fakeChainEval ops (scaleVec inputScale (castVec n)) := by
  have hscale := integerize_toTensor img
  refine ⟨hscale, ?_, ?_⟩
  · intro v hv
    rw [hscale] at hv
    obtain ⟨k, hk, rfl⟩ := List.mem_map.mp hv
    exact ⟨k, hpix k hk, rfl⟩
  · rw [epsTunnelVec_eq_scale]
    exact (chain_comm ops inputScale (by norm_num [inputScale]) hwf n).symm

/-- Witness for C3 at a concrete image and chain. -/
theorem c3_true_quant_boundary_witness :
    (∀ k ∈ [0, 128, 255], k ≤ 255)
      ∧ ((∀ op ∈ opsEx, TQOp.wf op)
      ∧ (integerize true ([0, 128, 255].map toTensor)
          = [0, 128, 255].map (fun k : ℕ => (k : ℚ))
        ∧ (∀ v ∈ integerize true ([0, 128, 255].map toTensor),
            ∃ m : ℕ, m ≤ 255 ∧ v = (m : ℚ))
        ∧ epsTunnelVec (chainEps opsEx inputScale) (trueChainEval opsEx nEx)
            = fakeChainEval opsEx (scaleVec inputScale (castVec nEx)))) :=
  ⟨by decide, opsEx_wf,
    c3_true_quant_boundary [0, 128, 255] (by decide) opsEx opsEx_wf nEx⟩

/-! ## Helper lemmas about the dataloader and `validate` -/

theorem dataLoaderBatches_unfold (bs : ℕ) (xs : List α) :
    dataLoaderBatches bs true xs
      = (List.range (xs.length / bs)).map (fun i => (xs.drop (bs * i)).take bs) := rfl

theorem dataLoaderBatches_length (bs : ℕ) (xs : List α) :
    (dataLoaderBatches bs true xs).length = xs.length / bs := by
  rw [dataLoaderBatches_unfold, List.length_map, List.length_range]

theorem flatten_map_range_take (bs : ℕ) (xs : List α) : ∀ k : ℕ, bs * k ≤ xs.length →
    ((List.range k).map (fun i => (xs.drop (bs * i)).take bs)).flatten
      = xs.take (bs * k) := by
  intro k
  induction k with
  | zero => intro _; simp
  | succ k ih =>
    intro hk
    have hk' : bs * k ≤ xs.length := le_trans (Nat.mul_le_mul_left bs (Nat.le_succ k)) hk
    rw [List.range_succ, List.map_append, List.flatten_append, ih hk']
    simp only [List.map_cons, List.map_nil, List.flatten_cons, List.flatten_nil,
      List.append_nil]
    rw [Nat.mul_succ, List.take_add]

theorem dataLoaderBatches_flatten (bs : ℕ) (xs : List α) :
    (dataLoaderBatches bs true xs).flatten = xs.take (bs * (xs.length / bs)) := by
  rw [dataLoaderBatches_unfold]
  exact flatten_map_range_take bs xs (xs.length / bs)
    (by rw [mul_comm]; exact Nat.div_mul_le_self xs.length bs)

theorem dataLoaderBatches_batch_length (bs : ℕ) (hbs : 0 < bs) (xs : List α) :
    ∀ b ∈ dataLoaderBatches bs true xs, b.length = bs := by
  rw [dataLoaderBatches_unfold]
  intro b hb
  obtain ⟨i, hi, rfl⟩ := List.mem_map.mp hb
  rw [List.mem_range] at hi
  have h1 : bs * (i + 1) ≤ bs * (xs.length / bs) := Nat.mul_le_mul_left bs hi
  have h2 : bs * (xs.length / bs) ≤ xs.length := by
    rw [mul_comm]; exact Nat.div_mul_le_self xs.length bs
  have h3 : bs * i + bs ≤ xs.length := by
    have h4 := le_trans h1 h2
    rwa [Nat.mul_succ] at h4
  rw [List.length_take, List.length_drop]
  omega

theorem correctCount_append (model : List ℚ → List ℚ) (integer : Bool)
    (xs ys : List (List ℚ × ℕ)) :
    correctCount model integer (xs ++ ys)
      = correctCount model integer xs + correctCount model integer ys := by
  simp [correctCount, List.filter_append]

theorem sum_correctCountQ_flatten (model : List ℚ → List ℚ) (integer : Bool) :
    ∀ L : List (List (List ℚ × ℕ)),
      (L.map (fun b => (correctCount model integer b : ℚ))).sum
        = (correctCount model integer L.flatten : ℚ) := by
  intro L
  induction L with
  | nil => simp [correctCount]
  | cons b L ih =>
    simp only [List.map_cons, List.sum_cons, ih, List.flatten_cons, correctCount_append]
    push_cast
    ring

theorem validate_eq_mean (model : List ℚ → List ℚ) (integer : Bool)
    (batches : List (List (List ℚ × ℕ))) (hne : batches ≠ []) :
    validate model batches integer
      = some ((batches.map (batchAcc model integer)).sum / (batches.length : ℚ)) := by
  have hform : Metric.applyUpdates (Metric.init testAccName)
        (batches.map (batchAcc model integer))
      = batches.foldl (fun acc batch => acc.update (batchAcc model integer batch))
          (Metric.init testAccName) := by
    simp only [Metric.applyUpdates, List.foldl_map]
  have hs := applyUpdates_sum (batches.map (batchAcc model integer)) (Metric.init testAccName)
  have hn := applyUpdates_n (batches.map (batchAcc model integer)) (Metric.init testAccName)
  rw [hform] at hs hn
  have hlen : batches.length ≠ 0 := fun h0 => hne (List.length_eq_zero.mp h0)
  simp only [validate, Metric.avg, hs, hn]
  simp [Metric.init, hlen]

theorem sum_batchAcc_eq (model : List ℚ → List ℚ) (integer : Bool) (bs : ℕ) :
    ∀ L : List (List (List ℚ × ℕ)), (∀ b ∈ L, b.length = bs) →
      (L.map (batchAcc model integer)).sum
        = (L.map (fun b => (correctCount model integer b : ℚ))).sum / (bs : ℚ) := by
  intro L
  induction L with
  | nil => intro _; simp
  | cons b L ih =>
    intro hb
    have hbl : b.length = bs := hb b (List.mem_cons_self b L)
    have hrest : ∀ x ∈ L, x.length = bs := fun x hx => hb x (List.mem_cons_of_mem b hx)
    simp only [List.map_cons, List.sum_cons, ih hrest, batchAcc, hbl]
    rw [div_add_div_same]

theorem validate_dropLast_closed (model : List ℚ → List ℚ) (integer : Bool)
    (bs : ℕ) (hbs : 0 < bs) (xs : List (List ℚ × ℕ)) (hlen : bs ≤ xs.length) :
    validate model (dataLoaderBatches bs true xs) integer
      = some ((correctCount model integer (xs.take (bs * (xs.length / bs))) : ℚ)
          / ((bs * (xs.length / bs) : ℕ) : ℚ)) := by
  have hBlen : (dataLoaderBatches bs true xs).length = xs.length / bs :=
    dataLoaderBatches_length bs xs
  have hq : 1 ≤ xs.length / bs := (Nat.one_le_div_iff hbs).mpr hlen
  have hne : dataLoaderBatches bs true xs ≠ [] := by
    intro h0
    rw [h0] at hBlen
    simp only [List.length_nil] at hBlen
    omega
  rw [validate_eq_mean model integer _ hne,
    sum_batchAcc_eq model integer bs _ (dataLoaderBatches_batch_length bs hbs xs),
    sum_correctCountQ_flatten model integer _,
    dataLoaderBatches_flatten bs xs, hBlen, div_div]
  congr 2
  push_cast
  ring

/-- C7: `validate` returns the unweighted arithmetic mean over batches of
the per-batch accuracy; both notebook dataloaders use
`batch_size=128, drop_last=True`, all produced batches therefore hold
exactly 128 examples, so the returned value equals the total number of
correct predictions divided by the number of examples actually evaluated
(`128 * (len / 128)`), and examples beyond the last full batch of 128
never contribute to the result. -/
theorem c7_validate_batch_mean (model : List ℚ → List ℚ) (integer : Bool)
    (xs : List (List ℚ × ℕ)) (hlen : validLoaderCfg.batchSize ≤ xs.length) :
    (calibLoaderCfg.dropLast = true ∧ calibLoaderCfg.batchSize = 128
      ∧ validLoaderCfg.dropLast = true ∧ validLoaderCfg.batchSize = 128)
    ∧ (∀ batches : List (List (List ℚ × ℕ)), batches ≠ [] →
        validate model batches integer
          = some ((batches.map (batchAcc model integer)).sum / (batches.length : ℚ)))
    ∧ validate model
        (dataLoaderBatches validLoaderCfg.batchSize validLoaderCfg.dropLast xs) integer
        = some ((correctCount model integer (xs.take (128 * (xs.length / 128))) : ℚ)
            / ((128 * (xs.length / 128) : ℕ) : ℚ))
    ∧ validate model
        (dataLoaderBatches validLoaderCfg.batchSize validLoaderCfg.dropLast xs) integer
        = validate model
            (dataLoaderBatches validLoaderCfg.batchSize validLoaderCfg.dropLast
              (xs.take (128 * (xs.length / 128)))) integer := by
  have hbs : validLoaderCfg.batchSize = 128 := rfl
  have hdl : validLoaderCfg.dropLast = true := rfl
  have h128 : (0 : ℕ) < 128 := by norm_num
  have hlen' : 128 ≤ xs.length := hbs ▸ hlen
  refine ⟨⟨rfl, rfl, rfl, rfl⟩,
    fun batches hne => validate_eq_mean model integer batches hne, ?_, ?_⟩
  · rw [hbs, hdl]
    exact validate_dropLast_closed model integer 128 h128 xs hlen'
  · rw [hbs, hdl]
    set N := 128 * (xs.length / 128) with hN
    have hNle : N ≤ xs.length := by
      rw [hN, mul_comm]; exact Nat.div_mul_le_self xs.length 128
    have hlen2 : (xs.take N).length = N := by
      rw [List.length_take]; omega
    have hqpos : 1 ≤ xs.length / 128 := (Nat.one_le_div_iff h128).mpr hlen'
    have hlen3 : 128 ≤ (xs.take N).length := by
      rw [hlen2, hN]
      exact Nat.le_mul_of_pos_right 128 (by omega)
    have hq : N / 128 = xs.length / 128 := by
      rw [hN, Nat.mul_div_cancel_left _ h128]
    have h1 := validate_dropLast_closed model integer 128 h128 xs hlen'
    have h2 := validate_dropLast_closed model integer 128 h128 (xs.take N) hlen3
    have h3 : (xs.take N).take N = xs.take N := by
      rw [List.take_take, min_self]
    rw [h1, h2, hlen2, hq, ← hN, h3]

/-- Witness for C7 at a concrete model and a 128-example dataset. -/
theorem c7_validate_batch_mean_witness :
    validLoaderCfg.batchSize ≤ xsEx.length
      ∧ ((calibLoaderCfg.dropLast = true ∧ calibLoaderCfg.batchSize = 128
          ∧ validLoaderCfg.dropLast = true ∧ validLoaderCfg.batchSize = 128)
        ∧ (∀ batches : List (List (List ℚ × ℕ)), batches ≠ [] →
            validate mEx batches false
              = some ((batches.map (batchAcc mEx false)).sum / (batches.length : ℚ)))
        ∧ validate mEx
            (dataLoaderBatches validLoaderCfg.batchSize validLoaderCfg.dropLast xsEx) false
            = some ((correctCount mEx false (xsEx.take (128 * (xsEx.length / 128))) : ℚ)
                / ((128 * (xsEx.length / 128) : ℕ) : ℚ))
        ∧ validate mEx
            (dataLoaderBatches validLoaderCfg.batchSize validLoaderCfg.dropLast xsEx) false
            = validate mEx
                (dataLoaderBatches validLoaderCfg.batchSize validLoaderCfg.dropLast
                  (xsEx.take (128 * (xsEx.length / 128)))) false) :=
  ⟨by decide, c7_validate_batch_mean mEx false xsEx (by decide)⟩

/-! ## Helper lemmas about the calibration subset -/

theorem calibExamples_unfold (perm : List ℕ) :
    calibExamples perm = (calibIndices perm).map (fun i => (Split.train, i)) := rfl

theorem calibIndices_length (trainLen : ℕ) (perm : List ℕ)
    (hperm : perm.Perm (List.range trainLen)) (hlen : Mcalib ≤ trainLen) :
    (calibIndices perm).length = Mcalib := by
  have hplen : perm.length = trainLen :=
    hperm.length_eq.trans (List.length_range trainLen)
  show (perm.take Mcalib).length = Mcalib
  rw [List.length_take, hplen]
  omega

/-- C4: the calibration pass selects `Mcalib = 1024` distinct examples,
all from the MNIST training split, none of which lies in the validation
split; the calibration loader (`batch_size=128, drop_last=True`) feeds
exactly those 1024 examples; the calibration `validate` run happens on
the fake-quantized model inside the calibration context on the
calibration loader; and every reported accuracy is measured on the
validation loader. -/
theorem c4_calibration_subset (trainLen validLen : ℕ) (perm : List ℕ)
    (hperm : perm.Perm (List.range trainLen)) (hlen : Mcalib ≤ trainLen) :
    (calibExamples perm).length = 1024
      ∧ (calibExamples perm).Nodup
      ∧ (∀ e ∈ calibExamples perm, e.1 = Split.train ∧ e.2 < trainLen)
      ∧ (∀ e ∈ calibExamples perm, e ∉ validExamples validLen)
      ∧ (dataLoaderBatches calibLoaderCfg.batchSize calibLoaderCfg.dropLast
          (calibExamples perm)).flatten = calibExamples perm
      ∧ (({ stage := Stage.fakeQuantized, loader := Loader.calib, integer := false,
            reported := false, calibCtx := true } : ValidateCall)
          ∈ validateCallsOf notebookScript)
      ∧ (∀ c ∈ validateCallsOf notebookScript,
          c.reported = true → c.loader = Loader.valid) := by
  have hidxlen : (calibIndices perm).length = Mcalib :=
    calibIndices_length trainLen perm hperm hlen
  have hcelen : (calibExamples perm).length = 1024 := by
    rw [calibExamples_unfold, List.length_map, hidxlen]
    rfl
  have hmemtrain : ∀ e ∈ calibExamples perm, e.1 = Split.train ∧ e.2 < trainLen := by
    intro e he
    rw [calibExamples_unfold] at he
    obtain ⟨i, hi, rfl⟩ := List.mem_map.mp he
    have hip : i ∈ perm := List.mem_of_mem_take hi
    have hir : i ∈ List.range trainLen := hperm.subset hip
    exact ⟨rfl, List.mem_range.mp hir⟩
  refine ⟨hcelen, ?_, hmemtrain, ?_, ?_, by decide, by decide⟩
  · rw [calibExamples_unfold]
    have hnodup : perm.Nodup := hperm.nodup_iff.mpr (List.nodup_range trainLen)
    have htake : (calibIndices perm).Nodup :=
      (List.take_sublist Mcalib perm).nodup hnodup
    exact htake.map (fun a b h => congrArg Prod.snd h)
  · intro e he hv
    have htr : e.1 = Split.train := (hmemtrain e he).1
    obtain ⟨j, _, rfl⟩ := List.mem_map.mp hv
    simp at htr
  · have hbs : calibLoaderCfg.batchSize = 128 := rfl
    have hdl : calibLoaderCfg.dropLast = true := rfl
    rw [hbs, hdl, dataLoaderBatches_flatten, hcelen]
    norm_num
    exact le_of_eq hcelen

/-- Witness for C4 at the identity permutation of the 60000 MNIST
training indices. -/
theorem c4_calibration_subset_witness :
    permA.Perm (List.range trainLenMNIST)
      ∧ Mcalib ≤ trainLenMNIST
      ∧ ((calibExamples permA).length = 1024
        ∧ (calibExamples permA).Nodup
        ∧ (∀ e ∈ calibExamples permA, e.1 = Split.train ∧ e.2 < trainLenMNIST)
        ∧ (∀ e ∈ calibExamples permA, e ∉ validExamples validLenMNIST)
        ∧ (dataLoaderBatches calibLoaderCfg.batchSize calibLoaderCfg.dropLast
            (calibExamples permA)).flatten = calibExamples permA
        ∧ (({ stage := Stage.fakeQuantized, loader := Loader.calib, integer := false,
              reported := false, calibCtx := true } : ValidateCall)
            ∈ validateCallsOf notebookScript)
        ∧ (∀ c ∈ validateCallsOf notebookScript,
            c.reported = true → c.loader = Loader.valid)) :=
  ⟨List.Perm.refl permA, by decide,
    c4_calibration_subset trainLenMNIST validLenMNIST permA
      (List.Perm.refl permA) (by decide)⟩

/-! ## Helper lemmas about running maxima -/

theorem foldl_max_init_le (l : List ℚ) : ∀ a : ℚ, a ≤ l.foldl max a := by
  induction l with
  | nil => intro a; exact le_refl a
  | cons x l ih => intro a; exact le_trans (le_max_left a x) (ih (max a x))

theorem le_foldl_max (l : List ℚ) : ∀ a x : ℚ, x ∈ l → x ≤ l.foldl max a := by
  induction l with
  | nil => intro a x hx; exact absurd hx (List.not_mem_nil x)
  | cons y l ih =>
    intro a x hx
    rcases List.mem_cons.mp hx with rfl | hx'
    · exact le_trans (le_max_right a x) (foldl_max_init_le l (max a x))
    · exact ih (max a y) x hx'

theorem foldl_max_le (l : List ℚ) : ∀ a b : ℚ, a ≤ b → (∀ x ∈ l, x ≤ b) →
    l.foldl max a ≤ b := by
  induction l with
  | nil => intro a b hab _; exact hab
  | cons y l ih =>
    intro a b hab hx
    exact ih (max a y) b (max_le hab (hx y (List.mem_cons_self y l)))
      (fun x hx' => hx x (List.mem_cons_of_mem y hx'))

/-- C9: the calibration subset depends on the unseeded random
permutation, not only on the data: there are two permutations of the
training indices selecting different 1024-example calibration subsets,
and on which the modelled calibration range statistic differs, so two
runs with identical data inputs can produce different quantizer
parameters. -/
theorem c9_unseeded_permutation_nondeterministic :
    ∃ p q : List ℕ,
      p.Perm (List.range trainLenMNIST) ∧ q.Perm (List.range trainLenMNIST)
        ∧ calibIndices p ≠ calibIndices q
        ∧ calibRange actSample (calibIndices p)
            ≠ calibRange actSample (calibIndices q) := by
  have hA : calibIndices permA = List.range 1024 := by
    show (List.range trainLenMNIST).take Mcalib = List.range 1024
    rw [List.take_range]
    rfl
  have hAle : calibRange actSample (calibIndices permA) ≤ 1023 := by
    rw [hA]
    show ((List.range 1024).map actSample).foldl max 0 ≤ 1023
    refine foldl_max_le _ 0 1023 (by norm_num) ?_
    intro x hx
    obtain ⟨i, hi, rfl⟩ := List.mem_map.mp hx
    rw [List.mem_range] at hi
    show (i : ℚ) ≤ 1023
    exact_mod_cast Nat.le_of_lt_succ (by omega)
  have hsplit : permB = 59999 :: (List.range 59999).reverse := by
    show (List.range trainLenMNIST).reverse = _
    rw [show trainLenMNIST = 59999 + 1 from rfl, List.range_succ, List.reverse_append]
    simp
  have hmem59999 : (59999 : ℕ) ∈ calibIndices permB := by
    show (59999 : ℕ) ∈ permB.take Mcalib
    rw [hsplit, show Mcalib = 1023 + 1 from rfl, List.take_succ_cons]
    exact List.mem_cons_self 59999 _
  have hBge : ((59999 : ℕ) : ℚ) ≤ calibRange actSample (calibIndices permB) := by
    show _ ≤ ((calibIndices permB).map actSample).foldl max 0
    exact le_foldl_max _ 0 _ (List.mem_map.mpr ⟨59999, hmem59999, rfl⟩)
  have hne : calibRange actSample (calibIndices permA)
      ≠ calibRange actSample (calibIndices permB) := by
    intro heq
    have h1 : ((59999 : ℕ) : ℚ) ≤ 1023 :=
      le_trans (le_of_le_of_eq hBge heq.symm) hAle
    norm_num at h1
  refine ⟨permA, permB, List.Perm.refl permA, List.reverse_perm _, ?_, hne⟩
  intro hidx
  exact hne (by rw [hidx])

end QL
